import Mathlib

/-!
Shallow embedding of the `sv` cross-validation tool (Terraform / OpenAPI drift
checker) and proofs about its specification claims.

Strings are modelled as `List Char`; the Rust string primitives used by the
tool (`contains`, `split`, `splitn`, `replace`, `replacen`, `trim`,
`matches().count()`) are given executable Lean counterparts below.  Rust
`trim` removes Unicode whitespace; the model restricts to ASCII whitespace
(space, tab, newline, carriage return), which is the only whitespace that can
occur in the configuration strings the tool handles.

Log calls (`error!` / `warn!`) are modelled as diagnostics accumulated in the
return value; `panic!` / `expect` / `todo!` are modelled by a dedicated
`RunResult.panic` constructor, and `anyhow::Result::Err` by `RunResult.err`.
-/

set_option maxHeartbeats 1000000

/-- The double-quote character, written via its code point so that character
literals containing quotes never appear in the source. -/
def quoteChar : Char := Char.ofNat 34

/-- ASCII whitespace test, modelling `char::is_whitespace` on the inputs the
tool handles. -/
def isWs (c : Char) : Bool := c == ' ' || c == '\t' || c == '\n' || c == '\r'

/-- Model of Rust `str::trim`: drop whitespace from both ends. -/
def trim (l : List Char) : List Char :=
  ((l.dropWhile isWs).reverse.dropWhile isWs).reverse

/-- Model of Rust `str::contains(&str)`: substring occurrence test. -/
def occursIn (needle : List Char) : List Char → Bool
  | [] => needle.isEmpty
  | c :: rest => needle.isPrefixOf (c :: rest) || occursIn needle rest

/-- Model of Rust `str::split(char)`: split at every occurrence of a
character, keeping empty pieces. -/
def splitOnChar (c : Char) : List Char → List (List Char)
  | [] => [[]]
  | x :: xs =>
    if x = c then [] :: splitOnChar c xs
    else
      match splitOnChar c xs with
      | [] => [[x]]
      | y :: ys => (x :: y) :: ys

/-- Model of Rust `str::replacen(char, to, n)` with a single replacement
character: replace the first `n` occurrences of `a` by `b`. -/
def replacen (a b : Char) : Nat → List Char → List Char
  | _, [] => []
  | 0, x :: xs => x :: xs
  | n + 1, x :: xs =>
    if x = a then b :: replacen a b n xs else x :: replacen a b (n + 1) xs

/-- Model of Rust `str::replacen(char, "", n)`: delete the first `n`
occurrences of the character `a`. -/
def removen (a : Char) : Nat → List Char → List Char
  | _, [] => []
  | 0, x :: xs => x :: xs
  | n + 1, x :: xs =>
    if x = a then removen a n xs else x :: removen a (n + 1) xs

/-- Fuel-driven worker for `splitOnStr`; the fuel is the length of the input,
which is enough because every step consumes at least one character. -/
def splitOnStrAux (sep : List Char) : Nat → List Char → List (List Char)
  | _, [] => [[]]
  | 0, cs => [cs]
  | fuel + 1, x :: xs =>
    if sep.isPrefixOf (x :: xs) then
      [] :: splitOnStrAux sep fuel ((x :: xs).drop sep.length)
    else
      match splitOnStrAux sep fuel xs with
      | [] => [[x]]
      | y :: ys => (x :: y) :: ys

/-- Model of Rust `str::split(&str)`: split at every non-overlapping
occurrence of a substring pattern. -/
def splitOnStr (sep cs : List Char) : List (List Char) :=
  if sep.isEmpty then [cs] else splitOnStrAux sep cs.length cs

/-- Fuel-driven worker for `removeSubAll`. -/
def removeSubAllAux (pat : List Char) : Nat → List Char → List Char
  | _, [] => []
  | 0, cs => cs
  | fuel + 1, x :: xs =>
    if pat.isPrefixOf (x :: xs) then
      removeSubAllAux pat fuel ((x :: xs).drop pat.length)
    else x :: removeSubAllAux pat fuel xs

/-- Model of Rust `str::replace(pat, "")`: delete every non-overlapping
occurrence of a substring pattern. -/
def removeSubAll (pat cs : List Char) : List Char :=
  if pat.isEmpty then cs else removeSubAllAux pat cs.length cs

/-- Fuel-driven worker for `countSub`. -/
def countSubAux (pat : List Char) : Nat → List Char → Nat
  | _, [] => 0
  | 0, _ => 0
  | fuel + 1, x :: xs =>
    if pat.isPrefixOf (x :: xs) then
      countSubAux pat fuel ((x :: xs).drop pat.length) + 1
    else countSubAux pat fuel xs

/-- Model of Rust `str::matches(pat).count()`: number of non-overlapping
occurrences of a substring pattern, scanning left to right. -/
def countSub (pat cs : List Char) : Nat :=
  if pat.isEmpty then 0 else countSubAux pat cs.length cs

/-- HTTP methods, from `src/util.rs` (`HttpMethod`).  The `any` variant is the
wildcard "any method" token used by `terraform.rs` and `cross_validation.rs`
(`HttpMethod::Any`); it is referenced from those files though absent from the
`util.rs` snapshot, and its display string is modelled from the spec's
"wildcard meaning any method". -/
inductive HttpMethod where
  | get
  | post
  | put
  | delete
  | patch
  | head
  | options
  | trace
  | connect
  | any
  deriving DecidableEq, Repr

/-- Display strings of `HttpMethod` (the `Display` impl in `src/util.rs`). -/
def methodDisplay : HttpMethod → List Char
  | .get => "GET".data
  | .post => "POST".data
  | .put => "PUT".data
  | .delete => "DELETE".data
  | .patch => "PATCH".data
  | .head => "HEAD".data
  | .options => "OPTIONS".data
  | .trace => "TRACE".data
  | .connect => "CONNECT".data
  | .any => "*".data

/-- Lowercased display string, as used by `main.rs`
(`method.to_string().to_lowercase()`). -/
def methodLowerName (m : HttpMethod) : List Char := (methodDisplay m).map Char.toLower

/-- Model of `impl From<&str> for HttpMethod` in `src/util.rs`: lowercase the
input and match it against the nine recognized method names; any other string
hits `panic!("Invalid HTTP method")`, modelled by `none`. -/
def methodFromString (s : List Char) : Option HttpMethod :=
  let l := s.map Char.toLower
  if l = "get".data then some .get
  else if l = "post".data then some .post
  else if l = "put".data then some .put
  else if l = "delete".data then some .delete
  else if l = "patch".data then some .patch
  else if l = "head".data then some .head
  else if l = "options".data then some .options
  else if l = "trace".data then some .trace
  else if l = "connect".data then some .connect
  else none

/-- The nine method-name strings recognized by `HttpMethod::from`. -/
def recognizedMethodNames : List (List Char) :=
  ["get".data, "post".data, "put".data, "delete".data, "patch".data,
   "head".data, "options".data, "trace".data, "connect".data]

/-- Lambda trigger type, from `src/terraform.rs` (`LambdaTriggerType`). -/
inductive LambdaTriggerType where
  | stepFunction
  | apiGateway
  | eventBridge
  | scheduler
  deriving DecidableEq, Repr

/-- One (method, route) pair a lambda answers, from `src/terraform.rs`
(`APIPath`). -/
structure APIPath where
  method : HttpMethod
  route : List Char
  deriving DecidableEq, Repr

/-- Normalized lambda record, from `src/terraform.rs` (`Lambda`). -/
structure Lambda where
  key : List Char
  handler : List Char
  step_function : Bool
  apis : List APIPath
  arn_template_key : Option (List Char)
  lambda_type : LambdaTriggerType
  deriving DecidableEq, Repr

/-- Backend integration classification, from `src/open_api.rs` (`APIType`). -/
inductive APIType where
  | lambda
  | stepFunction
  | sqs
  deriving DecidableEq, Repr

/-- Normalized endpoint record, from `src/open_api.rs` (`OpenAPIData`). -/
structure OpenAPIData where
  path : List Char
  method : HttpMethod
  uri : List Char
  execution_type : APIType
  deriving DecidableEq, Repr

/-- Diagnostics emitted by the tool; one constructor per distinct
`error!` / `warn!` call site among the functions embedded here, carrying the
data interpolated into the message. -/
inductive Diag where
  | pathNotInOpenApi (route lambdaKey : List Char)
  | methodNotInOpenApi (method : HttpMethod) (route lambdaKey : List Char)
  | uriMissingArn (arnKey : List Char) (method : HttpMethod) (route lambdaKey : List Char)
  | pathNotInTerraform (path : List Char)
  | methodNotInTerraform (method : HttpMethod) (path : List Char)
  | sqsNotHandled
  | stepFunctionsNotHandled
  | intUriMissingArn (arnKey : List Char) (method : HttpMethod) (route lambdaKey : List Char)
  | intUriStepFunction (method : HttpMethod) (route lambdaKey : List Char)
  | intUriMissing (method : HttpMethod) (route lambdaKey : List Char)
  | intExtensionMissing (method : HttpMethod) (route lambdaKey : List Char)
  | mainMethodNotDefined (method : HttpMethod) (route lambdaKey : List Char)
  | mainPathNotInOpenApi (route lambdaKey : List Char)
  | arnNotUsed (arnKey : List Char)
  | mainPathNotInTerraform (path : List Char)
  | mainMethodsNotInTerraform (path : List Char) (methods : List (List Char))
  | lambdaNotUsedInApiGw (key : List Char)
  | arnWithoutPermissions (key : List Char)
  | lambdaUnused (key : List Char)
  | extraPermissionKey (key : List Char)
  | duplicatedKey (key : List Char)
  | warnNoRequestBody (method : HttpMethod) (path : List Char)
  | warnOptionsBody (path : List Char)
  deriving DecidableEq, Repr

/-- Outcome of running an embedded fallible function: `ok` and `err` mirror
`anyhow::Result`, `panic` mirrors `panic!` / `expect` / `todo!` / index out of
bounds; every constructor carries the diagnostics logged before returning. -/
inductive RunResult (α : Type) where
  | ok (val : α) (diags : List Diag)
  | err (msg : List Char) (diags : List Diag)
  | panic (msg : List Char) (diags : List Diag)
  deriving DecidableEq, Repr

/-- Sequencing of embedded computations: diagnostics accumulate in order, and
`err` / `panic` abort the rest (mirroring `?` and unwinding). -/
def RunResult.andThen {α β : Type} (r : RunResult α) (f : α → RunResult β) : RunResult β :=
  match r with
  | .ok a d =>
    match f a with
    | .ok b d2 => .ok b (d ++ d2)
    | .err m d2 => .err m (d ++ d2)
    | .panic m d2 => .panic m (d ++ d2)
  | .err m d => .err m d
  | .panic m d => .panic m d

/-! ### Route Pattern Resolver (`src/terraform.rs`, `handle_api_gateway_lambda`) -/

/-- The rejected three-wildcard pattern literal. -/
def threeStarsPat : List Char := "/*/*/*".data

/-- The two-wildcard split pattern literal. -/
def twoStarsPat : List Char := "/*/*".data

/-- Message of the `anyhow!` error for the three-wildcard case. -/
def tooPermissiveMsg : List Char := "Unsupported route. It should rather be explicit".data

/-- Message tag for index-out-of-bounds panics on `Vec` indexing. -/
def indexPanicMsg : List Char := "index out of bounds".data

/-- Message tag of the `todo!` panic at the end of `handle_api_gateway_lambda`. -/
def caterMsg : List Char := "Need to cater for".data

/-- Message of the panic in `HttpMethod::from` for unrecognized method names. -/
def invalidHttpMethodMsg : List Char := "Invalid HTTP method".data

/-- Model of `extract_api_and_method` (`src/terraform.rs` lines 414-426): if
the line contains the method token, fix the method and delete every
`/<METHOD>` occurrence from the line. -/
def extract_api_and_method (line : List Char) (method : HttpMethod) : Option (List Char × List Char) :=
  if occursIn (methodDisplay method) line then
    some (methodDisplay method, removeSubAll ('/' :: methodDisplay method) line)
  else none

/-- The final else-if chain of `handle_api_gateway_lambda` (lines 457-469):
try GET, POST, PUT, DELETE, PATCH in order; if none occurs, `todo!` panics. -/
def fallbackScan (line : List Char) : RunResult (List (List Char)) :=
  match extract_api_and_method line .get with
  | some d => .ok [d.1, d.2] []
  | none =>
  match extract_api_and_method line .post with
  | some d => .ok [d.1, d.2] []
  | none =>
  match extract_api_and_method line .put with
  | some d => .ok [d.1, d.2] []
  | none =>
  match extract_api_and_method line .delete with
  | some d => .ok [d.1, d.2] []
  | none =>
  match extract_api_and_method line .patch with
  | some d => .ok [d.1, d.2] []
  | none => .panic caterMsg []

/-- The first of the five canonical method tokens occurring in a line, in the
scan order of `handle_api_gateway_lambda`. -/
def firstFive (line : List Char) : Option HttpMethod :=
  if occursIn (methodDisplay .get) line then some .get
  else if occursIn (methodDisplay .post) line then some .post
  else if occursIn (methodDisplay .put) line then some .put
  else if occursIn (methodDisplay .delete) line then some .delete
  else if occursIn (methodDisplay .patch) line then some .patch
  else none

/-- Single-wildcard branch of `handle_api_gateway_lambda` (lines 438-446):
split at the `*`, turn the first two slashes after it into spaces, trim,
split at spaces, and prefix the second piece with `/`. -/
def single_star_branch (sect : List Char) : RunResult (List (List Char)) :=
  let tail := (splitOnChar '*' sect).getD 1 []
  let data := splitOnChar ' ' (trim (replacen '/' ' ' 2 tail))
  if 2 ≤ data.length then .ok (data.set 1 ('/' :: trim (data.getD 1 []))) []
  else .panic indexPanicMsg []

/-- Double-wildcard branch of `handle_api_gateway_lambda` (lines 447-456):
split at `/*/*`, delete the first slash of the remainder, split at spaces,
insert the any-method token in front. -/
def double_star_branch (sect : List Char) : RunResult (List (List Char)) :=
  let tail := (splitOnStr twoStarsPat sect).getD 1 []
  let data := methodDisplay .any :: splitOnChar ' ' (trim (removen '/' 1 tail))
  if 2 ≤ data.length then .ok (data.set 1 ('/' :: trim (data.getD 1 []))) []
  else .panic indexPanicMsg []

/-- Fallback of `handle_api_gateway_lambda`: index `parts[1]` (panicking when
absent) and scan its trimmed text for method tokens. -/
def fallback_branch (parts : List (List Char)) : RunResult (List (List Char)) :=
  if 2 ≤ parts.length then fallbackScan (trim (parts.getD 1 []))
  else .panic indexPanicMsg []

/-- Branch dispatch of `handle_api_gateway_lambda` on the quote-stripped
section (lines 432-469). -/
def handle_section (sect : List Char) : RunResult (List (List Char)) :=
  if occursIn threeStarsPat sect then .err tooPermissiveMsg []
  else if '*' ∈ sect ∧ sect.count '*' = 1 then single_star_branch sect
  else if '*' ∈ sect ∧ sect.count '*' = 2 ∧ occursIn twoStarsPat sect then
    double_star_branch sect
  else fallback_branch (splitOnChar '}' sect)

/-- Model of `handle_api_gateway_lambda` (`src/terraform.rs` lines 429-470):
strip double quotes, then dispatch on the wildcard shape. -/
def handle_api_gateway_lambda (source_arn : List Char) : RunResult (List (List Char)) :=
  handle_section (source_arn.filter (fun c => !(c == quoteChar)))

/-! ### Reconciliation Engine (`src/cross_validation.rs`) -/

/-- The state-machine action marker checked by
`validate_aws_api_gateway_integration` (`uri_path.contains("state:action")`). -/
def stateActionPat : List Char := "state:action".data

/-- Message of the final `anyhow!` failure of `cross_validation` and `main`. -/
def invalidDocsMsg : List Char := "Invalid Terraform and OpenAPI documents".data

/-- Message of the `expect` panic when a `uri` extension value is not a string. -/
def uriToStrMsg : List Char := "Failed to convert URI to string".data

/-- Model of `validate_lambda_against_open_api` (`src/cross_validation.rs`
lines 62-103): filter endpoints by path, then by method (a wildcard route
method matches any endpoint), and require every matched Lambda-backed
endpoint's URI to contain the ARN placeholder.  Returns the `valid` flag and
the logged errors. -/
def validate_lambda_against_open_api (open_api_data : List OpenAPIData)
    (arn_key lambda_key : List Char) (api : APIPath) : Bool × List Diag :=
  let filtered := open_api_data.filter (fun x => x.path == api.route)
  if filtered = [] then
    (false, [Diag.pathNotInOpenApi api.route lambda_key])
  else
    let filtered2 := filtered.filter
      (fun x => (api.method == HttpMethod.any) || (x.method == api.method))
    if filtered2 = [] then
      (false, [Diag.methodNotInOpenApi api.method api.route lambda_key])
    else
      let errs := filtered2.filterMap (fun x =>
        if x.execution_type = APIType.lambda ∧ occursIn arn_key x.uri = false then
          some (Diag.uriMissingArn arn_key api.method api.route lambda_key)
        else none)
      (errs.isEmpty, errs)

/-- Forward-pass contribution of one lambda in `cross_validation` (lines
15-23): lambdas without an ARN template key are skipped; otherwise every route
is checked against the endpoint list. -/
def lambdaFwd (open_api_data : List OpenAPIData) (l : Lambda) : Bool × List Diag :=
  match l.arn_template_key with
  | none => (true, [])
  | some arnKey =>
    let rs := l.apis.map (fun api =>
      validate_lambda_against_open_api open_api_data arnKey l.key api)
    (rs.all (fun r => r.1), (rs.map (fun r => r.2)).flatten)

/-- Forward pass of `cross_validation`: all lambdas, in order. -/
def cross_validation_fwd (lambda_data : List Lambda)
    (open_api_data : List OpenAPIData) : Bool × List Diag :=
  let rs := lambda_data.map (lambdaFwd open_api_data)
  (rs.all (fun r => r.1), (rs.map (fun r => r.2)).flatten)

/-- Reverse-pass contribution of one endpoint in `cross_validation` (lines
25-55): for a Lambda-backed endpoint, collect the methods of every route
whose path equals the endpoint's path; an empty collection or a collection
containing neither the endpoint's method nor the wildcard is an error.
SQS- and StepFunction-backed endpoints only get a warning. -/
def rev_endpoint (lambda_apis : List APIPath) (e : OpenAPIData) : Bool × List Diag :=
  match e.execution_type with
  | .lambda =>
    let ms := (lambda_apis.filter (fun a => a.route == e.path)).map (fun a => a.method)
    if ms = [] then (false, [Diag.pathNotInTerraform e.path])
    else if e.method ∉ ms ∧ HttpMethod.any ∉ ms then
      (false, [Diag.methodNotInTerraform e.method e.path])
    else (true, [])
  | .sqs => (true, [Diag.sqsNotHandled])
  | .stepFunction => (true, [Diag.stepFunctionsNotHandled])

/-- Reverse pass of `cross_validation` (lines 24-55): the routes of all
lambdas are flattened first, then every endpoint is checked. -/
def cross_validation_rev (lambda_data : List Lambda)
    (open_api_data : List OpenAPIData) : Bool × List Diag :=
  let lambda_apis := (lambda_data.map (fun l => l.apis)).flatten
  let rs := open_api_data.map (rev_endpoint lambda_apis)
  (rs.all (fun r => r.1), (rs.map (fun r => r.2)).flatten)

/-- Model of `cross_validation` (`src/cross_validation.rs` lines 10-60): the
forward pass over lambdas runs first, then the reverse pass over endpoints;
the `valid` flag is the conjunction and the diagnostics are concatenated in
emission order. -/
def cross_validation (lambda_data : List Lambda)
    (open_api_data : List OpenAPIData) : Bool × List Diag :=
  ((cross_validation_fwd lambda_data open_api_data).1
     && (cross_validation_rev lambda_data open_api_data).1,
   (cross_validation_fwd lambda_data open_api_data).2
     ++ (cross_validation_rev lambda_data open_api_data).2)

/-- Final result of `cross_validation`: `Err` exactly when some error was
recorded (lines 56-59). -/
def cross_validation_result (lambda_data : List Lambda)
    (open_api_data : List OpenAPIData) : Except (List Char) Unit :=
  if (cross_validation lambda_data open_api_data).1 then .ok ()
  else .error invalidDocsMsg

/-- Value of the `x-amazon-apigateway-integration` `uri` field as seen through
`serde` extensions: a string, or some other JSON value (on which `as_str`
panics). -/
inductive JVal where
  | str (s : List Char)
  | other
  deriving DecidableEq, Repr

/-- The `x-amazon-apigateway-integration` extension object, restricted to the
field the tool reads. -/
structure Integration where
  uri : Option JVal
  deriving DecidableEq, Repr

/-- An OpenAPI operation, restricted to the parts the tool reads: the
integration extension, presence of a request body, and presence of at least
one parameter. -/
structure Operation where
  integration : Option Integration
  requestBody : Bool
  hasParams : Bool
  deriving DecidableEq, Repr

/-- Model of `validate_aws_api_gateway_integration` (`src/cross_validation.rs`
lines 105-139; `src/main.rs` lines 204-237 is the identical copy used by
`main`): require the integration extension and its `uri`, require the URI to
contain the ARN placeholder, and flag URIs containing the state-machine
action marker as an execution-type mismatch. -/
def validate_aws_api_gateway_integration (config : Operation)
    (lambda_key arn_key : List Char) (api : APIPath) : RunResult Bool :=
  match config.integration with
  | some aws =>
    match aws.uri with
    | some (.str uri_path) =>
      let d1 := if occursIn arn_key uri_path then []
        else [Diag.intUriMissingArn arn_key api.method api.route lambda_key]
      let d2 := if occursIn stateActionPat uri_path then
        [Diag.intUriStepFunction api.method api.route lambda_key] else []
      .ok (d1.isEmpty && d2.isEmpty) (d1 ++ d2)
    | some .other => .panic uriToStrMsg []
    | none => .ok false [Diag.intUriMissing api.method api.route lambda_key]
  | none => .ok false [Diag.intExtensionMissing api.method api.route lambda_key]

/-! ### Specification Model Builder (`src/open_api.rs`, `extract_api_data`) -/

/-- Classification marker for state-machine backends in
`extract_api_data_for_item` (`uri_path.contains("states:action")`; note this
differs from the `state:action` marker of the integration check). -/
def statesActionPat : List Char := "states:action".data

/-- Classification marker for lambda backends. -/
def lambdaPathPat : List Char := "lambda:path".data

/-- Classification marker for SQS backends. -/
def sqsActionPat : List Char := "sqs:action".data

/-- Message of the `expect` panic for a missing integration extension. -/
def expectIntegrationMsg : List Char :=
  "Expected x-amazon-apigateway-integration extension".data

/-- Message of the `expect` panic for a missing `uri` in the extension. -/
def expectUriMsg : List Char :=
  "Expected uri in x-amazon-apigateway-integration extension".data

/-- Message of the `Err` returned for methods outside the supported set. -/
def httpMethodNotUsedMsg : List Char := "Http method should not be used".data

/-- Message of the `Err` returned for an unclassifiable backend URI. -/
def unknownExecMsg : List Char := "Unknown execution type for URI".data

/-- An OpenAPI path item, restricted to the per-method operation slots the
tool reads (`openapiv3::PathItem`); `$ref`-valued path items make the code
panic on `as_item().unwrap()` and are outside the model. -/
structure PathItem where
  get : Option Operation
  put : Option Operation
  post : Option Operation
  delete : Option Operation
  options : Option Operation
  head : Option Operation
  patch : Option Operation
  trace : Option Operation
  deriving DecidableEq, Repr

/-- Model of `extract_api_data_for_item` (`src/open_api.rs` lines 287-331):
require the integration extension and a string `uri` (panicking otherwise),
reject methods outside GET/POST/PUT/PATCH/DELETE/OPTIONS with an `Err`, warn
on bodyless POST/PUT/PATCH and on OPTIONS, then classify the URI. -/
def extract_api_data_for_item (item : Operation) (path : List Char)
    (method : HttpMethod) : RunResult OpenAPIData :=
  match item.integration with
  | none => .panic expectIntegrationMsg []
  | some aws =>
    match aws.uri with
    | none => .panic expectUriMsg []
    | some .other => .panic uriToStrMsg []
    | some (.str uri_path) =>
      match method with
      | .head | .trace | .connect | .any => .err httpMethodNotUsedMsg []
      | _ =>
        let wd : List Diag :=
          match method with
          | .post | .put | .patch =>
            if !item.requestBody && !item.hasParams then
              [Diag.warnNoRequestBody method path] else []
          | .options => [Diag.warnOptionsBody path]
          | _ => []
        if occursIn statesActionPat uri_path then
          .ok ⟨path, method, uri_path, .stepFunction⟩ wd
        else if occursIn lambdaPathPat uri_path then
          .ok ⟨path, method, uri_path, .lambda⟩ wd
        else if occursIn sqsActionPat uri_path then
          .ok ⟨path, method, uri_path, .sqs⟩ wd
        else .err unknownExecMsg wd

/-- One optional operation slot of `extract_api_data`: absent slots contribute
nothing, present slots are extracted. -/
def optExtract (p : List Char) (field : Option Operation)
    (m : HttpMethod) : RunResult (List OpenAPIData) :=
  match field with
  | none => .ok [] []
  | some op => RunResult.andThen (extract_api_data_for_item op p m) (fun d => .ok [d] [])

/-- Per-path body of `extract_api_data` (`src/open_api.rs` lines 337-358): the
code inspects only the `get`, `post`, `put`, `patch` and `delete` slots, in
that order; `options`, `head` and `trace` operations are never visited. -/
def extract_path_item (p : List Char) (it : PathItem) : RunResult (List OpenAPIData) :=
  RunResult.andThen (optExtract p it.get .get) (fun a =>
  RunResult.andThen (optExtract p it.post .post) (fun b =>
  RunResult.andThen (optExtract p it.put .put) (fun c =>
  RunResult.andThen (optExtract p it.patch .patch) (fun d =>
  RunResult.andThen (optExtract p it.delete .delete) (fun e =>
  .ok (a ++ b ++ c ++ d ++ e) [])))))

/-- Model of `extract_api_data` (`src/open_api.rs` lines 333-360), taking the
already-parsed path map (the YAML parsing itself is an excluded
collaborator). -/
def extract_api_data : List (List Char × PathItem) → RunResult (List OpenAPIData)
  | [] => .ok [] []
  | p :: rest =>
    RunResult.andThen (extract_path_item p.1 p.2) (fun xs =>
    RunResult.andThen (extract_api_data rest) (fun ys => .ok (xs ++ ys) []))

/-! ### Forward / reverse validation loops of `main` (`src/main.rs`) -/

/-- Message tag for the `todo!()` panic in the method dispatch of `main`. -/
def mainTodoMsg : List Char := "not yet implemented".data

/-- Model of `doc.paths.paths.get(&api.route)`: first path entry with an equal
key. -/
def lookupPath (doc : List (List Char × PathItem)) (route : List Char) : Option PathItem :=
  (doc.find? (fun p => p.1 == route)).map Prod.snd

/-- Per-route body of the forward loop of `main` (`src/main.rs` lines 64-153):
look the route up in the document; a missing path only logs an error (without
flipping `valid`); a present path dispatches on the route's method, calling
the integration check when the operation exists and logging a
method-not-defined error otherwise; `Trace`/`Connect`/`Any` hit `todo!()`. -/
def main_forward_api (doc : List (List Char × PathItem))
    (lambda_key arn_key : List Char) (api : APIPath) : RunResult Bool :=
  match lookupPath doc api.route with
  | none => .ok true [Diag.mainPathNotInOpenApi api.route lambda_key]
  | some item =>
    match api.method with
    | .get =>
      match item.get with
      | some config => validate_aws_api_gateway_integration config lambda_key arn_key api
      | none => .ok false [Diag.mainMethodNotDefined .get api.route lambda_key]
    | .post =>
      match item.post with
      | some config => validate_aws_api_gateway_integration config lambda_key arn_key api
      | none => .ok false [Diag.mainMethodNotDefined .post api.route lambda_key]
    | .put =>
      match item.put with
      | some config => validate_aws_api_gateway_integration config lambda_key arn_key api
      | none => .ok false [Diag.mainMethodNotDefined .put api.route lambda_key]
    | .delete =>
      match item.delete with
      | some config => validate_aws_api_gateway_integration config lambda_key arn_key api
      | none => .ok false [Diag.mainMethodNotDefined .delete api.route lambda_key]
    | .patch =>
      match item.patch with
      | some config => validate_aws_api_gateway_integration config lambda_key arn_key api
      | none => .ok false [Diag.mainMethodNotDefined .patch api.route lambda_key]
    | .options =>
      match item.options with
      | some config => validate_aws_api_gateway_integration config lambda_key arn_key api
      | none => .ok false [Diag.mainMethodNotDefined .options api.route lambda_key]
    | .head =>
      match item.head with
      | some config => validate_aws_api_gateway_integration config lambda_key arn_key api
      | none => .ok false [Diag.mainMethodNotDefined .head api.route lambda_key]
    | _ => .panic mainTodoMsg []

/-- Sequential conjunction of boolean validation steps: diagnostics accumulate
in order and panics abort, mirroring a loop over a mutable `valid` flag. -/
def runAllBool {α : Type} (f : α → RunResult Bool) : List α → RunResult Bool
  | [] => .ok true []
  | x :: xs =>
    RunResult.andThen (f x) (fun v =>
      RunResult.andThen (runAllBool f xs) (fun v2 => .ok (v && v2) []))

/-- Per-lambda body of the forward loop of `main` (`src/main.rs` lines
60-163): lambdas without an ARN key are skipped; otherwise every route is
checked against the document, and afterwards the ARN key must occur at least
once in the merged specification text (lines 154-162). -/
def main_forward_key (doc : List (List Char × PathItem)) (specText : List Char)
    (l : Lambda) : RunResult Bool :=
  match l.arn_template_key with
  | none => .ok true []
  | some arnKey =>
    RunResult.andThen (runAllBool (main_forward_api doc l.key arnKey) l.apis) (fun v =>
      if countSub arnKey specText = 0 then .ok false [Diag.arnNotUsed arnKey]
      else .ok v [])

/-- Present operation names of a path item, in the field order of
`openapiv3::PathItem::iter` (modelled order; no theorem below depends on it). -/
def presentMethodNames (it : PathItem) : List (List Char) :=
  (if it.get.isSome then ["get".data] else [])
    ++ (if it.put.isSome then ["put".data] else [])
    ++ (if it.post.isSome then ["post".data] else [])
    ++ (if it.delete.isSome then ["delete".data] else [])
    ++ (if it.options.isSome then ["options".data] else [])
    ++ (if it.head.isSome then ["head".data] else [])
    ++ (if it.patch.isSome then ["patch".data] else [])
    ++ (if it.trace.isSome then ["trace".data] else [])

/-- Reverse loop of `main` (`src/main.rs` lines 164-195): for every document
path, the lowercased methods of the routes at that path must cover every
operation declared on the path item. -/
def main_paths_check (doc : List (List Char × PathItem))
    (lambda_apis : List APIPath) : Bool × List Diag :=
  let rs := doc.map (fun p =>
    let fl := (lambda_apis.filter (fun a => a.route == p.1)).map
      (fun a => methodLowerName a.method)
    if fl = [] then (false, [Diag.mainPathNotInTerraform p.1])
    else
      let missing := (presentMethodNames p.2).filter (fun m => !(fl.contains m))
      if missing = [] then (true, ([] : List Diag))
      else (false, [Diag.mainMethodsNotInTerraform p.1 missing]))
  (rs.all (fun r => r.1), (rs.map (fun r => r.2)).flatten)

/-- The whole validation phase of `main` after both models are built: the
forward loop over lambdas, then the reverse loop over document paths. -/
def main_validate (keys : List Lambda) (doc : List (List Char × PathItem))
    (specText : List Char) : RunResult Bool :=
  RunResult.andThen (runAllBool (main_forward_key doc specText) keys) (fun v =>
    let p := main_paths_check doc ((keys.map (fun l => l.apis)).flatten)
    .ok (v && p.1) p.2)

/-- Final outcome of `main`'s validation phase (`src/main.rs` lines 196-198):
`Err` exactly when `valid` ended up false. -/
def main_result (keys : List Lambda) (doc : List (List Char × PathItem))
    (specText : List Char) : RunResult Unit :=
  RunResult.andThen (main_validate keys doc specText) (fun v =>
    if v then .ok () [] else .err invalidDocsMsg [])

/-! ### Permission stage (`src/terraform.rs`, `validate_lambda_permissions`) -/

/-- Message of the `panic!` when a permission entry's key matches no lambda. -/
def failedMatchPermMsg : List Char := "Failed to match permission to key in lambda".data

/-- Message of the `expect` panic in the duplicate-count check. -/
def failedMatchKeyMsg : List Char := "Failed to match lambda key".data

/-- Message of the `unwrap` panic for a missing `principal` field. -/
def principalPanicMsg : List Char := "principal unwrap".data

/-- Message of the `unwrap` panic for a missing `source_arn` field. -/
def sourceArnPanicMsg : List Char := "source_arn unwrap".data

/-- Message of the `todo!` panic for an unrecognized trust principal. -/
def servicePanicMsg : List Char := "Need to cater for service".data

/-- Message of the `todo!` panic for unsupported HCL expression shapes. -/
def exprPanicMsg : List Char := "Terraform expression not supported currently".data

/-- Message of the final `anyhow!` failure of `validate_lambda_permissions`. -/
def invalidPermsMsg : List Char := "Invalid lambda_permissions.tf file".data

/-- The API-Gateway trust principal string. -/
def apigwPrincipal : List Char := "apigateway.amazonaws.com".data

/-- The EventBridge trust principal string. -/
def eventsPrincipal : List Char := "events.amazonaws.com".data

/-- The Scheduler trust principal string. -/
def schedulerPrincipal : List Char := "scheduler.amazonaws.com".data

/-- One element of a permission entry's array: an HCL object seen as its
`(field name, raw field text)` pairs (field text as produced by
`to_string()`, i.e. still carrying double quotes), or an unsupported
expression shape. -/
inductive PermItem where
  | obj (fields : List (List Char × List Char))
  | other
  deriving DecidableEq, Repr

/-- Value of one `lambdas_permissions` entry: an HCL array of items, or an
unsupported expression shape. -/
inductive PermExpr where
  | arr (items : List PermItem)
  | other
  deriving DecidableEq, Repr

/-- Replace the first lambda whose key matches, mirroring
`iter_mut().find(...)` followed by field mutation. -/
def updateFirst (meta : List Lambda) (key : List Char) (f : Lambda → Lambda) : List Lambda :=
  match meta with
  | [] => []
  | l :: ls => if l.key == key then f l :: ls else l :: updateFirst ls key f

/-- Per-item body of the permission loop (`src/terraform.rs` lines 283-329):
panic when the entry's key matches no lambda, read the `principal` (panicking
when absent), map it to a trigger type (`todo!` on anything unrecognized),
and for API-Gateway entries resolve the `source_arn` into a route which is
appended to the lambda's `apis`. -/
def processPermItem (meta : List Lambda) (groupKey : List Char)
    (item : PermItem) : RunResult (List Lambda) :=
  match item with
  | .other => .panic exprPanicMsg []
  | .obj fields =>
    match meta.find? (fun l => l.key == groupKey) with
    | none => .panic failedMatchPermMsg []
    | some _ =>
      match fields.find? (fun f => f.1 == "principal".data) with
      | none => .panic principalPanicMsg []
      | some pf =>
        let service := pf.2.filter (fun c => !(c == quoteChar))
        if service = apigwPrincipal then
          match fields.find? (fun f => f.1 == "source_arn".data) with
          | none => .panic sourceArnPanicMsg []
          | some sa =>
            match handle_api_gateway_lambda sa.2 with
            | .err m d => .err m d
            | .panic m d => .panic m d
            | .ok data _ =>
              match methodFromString (trim (data.getD 0 [])) with
              | none => .panic invalidHttpMethodMsg []
              | some meth =>
                if 2 ≤ data.length then
                  .ok (updateFirst meta groupKey (fun l =>
                    { l with lambda_type := .apiGateway,
                             apis := l.apis ++ [⟨meth, trim (data.getD 1 [])⟩] })) []
                else .panic indexPanicMsg []
        else if service = eventsPrincipal then
          .ok (updateFirst meta groupKey (fun l =>
            { l with lambda_type := .eventBridge })) []
        else if service = schedulerPrincipal then
          .ok (updateFirst meta groupKey (fun l =>
            { l with lambda_type := .eventBridge })) []
        else .panic servicePanicMsg []

/-- Fold an updating step over a list, threading the lambda list and
accumulating diagnostics (`err` / `panic` abort). -/
def runFoldMeta {α : Type} (f : List Lambda → α → RunResult (List Lambda)) :
    List Lambda → List α → RunResult (List Lambda)
  | meta, [] => .ok meta []
  | meta, x :: xs => RunResult.andThen (f meta x) (fun meta2 => runFoldMeta f meta2 xs)

/-- Per-entry body of the permission loop: arrays are folded item by item,
any other expression shape is a `todo!` panic. -/
def processPermGroup (meta : List Lambda)
    (g : List Char × PermExpr) : RunResult (List Lambda) :=
  match g.2 with
  | .other => .panic exprPanicMsg []
  | .arr items => runFoldMeta (fun m it => processPermItem m g.1 it) meta items

/-- First phase of `validate_lambda_permissions` (lines 279-334): process all
permission entries, mutating the lambda list. -/
def groupsPhase (perms : List (List Char × PermExpr))
    (meta : List Lambda) : RunResult (List Lambda) :=
  runFoldMeta processPermGroup meta perms

/-- Per-key body of the second phase of `validate_lambda_permissions` (lines
335-352): record an error when no lambda carries the key, then run the raw
text duplicate-count heuristic, whose `expect` panics when the key is
unmatched but occurs more than once in the raw text. -/
def keyStep (contents : List Char) (meta : List Lambda)
    (key : List Char) : RunResult Bool :=
  let d1 : List Diag := if ∃ l ∈ meta, l.key = key then []
    else [Diag.extraPermissionKey key]
  if 1 < countSub key contents then
    match meta.find? (fun l => l.key == key) with
    | none => .panic failedMatchKeyMsg d1
    | some l =>
      let d2 : List Diag := if l.apis.length ≠ countSub key contents then
        [Diag.duplicatedKey key] else []
      .ok (d1.isEmpty && d2.isEmpty) (d1 ++ d2)
  else .ok d1.isEmpty d1

/-- Second phase of `validate_lambda_permissions` (lines 335-353): the
per-key checks over every permission key, in order, diagnostics accumulated
and panics aborting. -/
def keysPhase (contents : List Char) (meta : List Lambda)
    (keys : List (List Char)) : RunResult Bool :=
  runAllBool (keyStep contents meta) keys

/-- Model of `validate_lambda_permissions` (`src/terraform.rs` lines 251-361),
taking the raw file text, the parsed `lambdas_permissions` object and the
lambda list from the registry stage; returns the mutated lambda list, or the
aggregate `Err` when any key error was recorded. -/
def validate_lambda_permissions (contents : List Char)
    (perms : List (List Char × PermExpr)) (meta : List Lambda) : RunResult (List Lambda) :=
  RunResult.andThen (groupsPhase perms meta) (fun meta2 =>
    RunResult.andThen (keysPhase contents meta2 (perms.map Prod.fst)) (fun v =>
      if v then .ok meta2 [] else .err invalidPermsMsg []))

/-! ### Coherence pass of `validate_terraform` (`src/terraform.rs` lines 82-126) -/

/-- Message of the final `anyhow!` failure of the coherence pass. -/
def invalidTerraformMsg : List Char := "Invalid Terraform configuration".data

/-- Per-lambda body of the coherence loop in the `step_function.tf` branch of
`validate_terraform` (lines 85-108): only the first diagnostic (permissions
without a gateway placeholder) flips `valid`; the two others are logged
without affecting it.  Note the first condition does not consult
`step_function`. -/
def coherence_lambda (l : Lambda) : Bool × List Diag :=
  let d1 : List Diag := if l.arn_template_key = none ∧ l.apis ≠ [] then
    [Diag.lambdaNotUsedInApiGw l.key] else []
  let d2 : List Diag := if l.arn_template_key ≠ none ∧ l.apis = [] then
    [Diag.arnWithoutPermissions l.key] else []
  let d3 : List Diag := if l.step_function = false ∧ l.arn_template_key = none ∧ l.apis = [] then
    [Diag.lambdaUnused l.key] else []
  (d1.isEmpty, d1 ++ d2 ++ d3)

/-- Coherence loop over all lambdas (lines 84-108). -/
def coherence_pass (lambda_data : List Lambda) : Bool × List Diag :=
  let rs := lambda_data.map coherence_lambda
  (rs.all (fun r => r.1), (rs.map (fun r => r.2)).flatten)

/-- Outcome of the coherence pass (lines 109-112): `Err` exactly when some
lambda had permissions but no gateway placeholder. -/
def coherence_result (lambda_data : List Lambda) : Except (List Char) (List Lambda) :=
  if (coherence_pass lambda_data).1 then .ok lambda_data
  else .error invalidTerraformMsg

/-! ### String lemmas -/

/-- A list without double quotes is unchanged by the quote-stripping filter. -/
theorem filter_quote_eq_self {l : List Char} (h : quoteChar ∉ l) :
    l.filter (fun c => !(c == quoteChar)) = l := by
  rw [List.filter_eq_self]
  intro a ha
  simp only [Bool.not_eq_true', beq_eq_false_iff_ne, ne_eq]
  rintro rfl
  exact h ha

/-- A successful `isPrefixOf` exhibits the suffix. -/
theorem isPrefixOf_exists {l₁ l₂ : List Char} (h : l₁.isPrefixOf l₂ = true) :
    ∃ t, l₂ = l₁ ++ t := by
  induction l₁ generalizing l₂ with
  | nil => exact ⟨l₂, rfl⟩
  | cons a as ih =>
    cases l₂ with
    | nil => simp [List.isPrefixOf] at h
    | cons b bs =>
      simp only [List.isPrefixOf, Bool.and_eq_true, beq_iff_eq] at h
      obtain ⟨rfl, h2⟩ := h
      obtain ⟨t, rfl⟩ := ih h2
      exact ⟨t, rfl⟩

/-- A successful substring search exhibits the decomposition. -/
theorem occursIn_exists {n h : List Char} (hh : occursIn n h = true) :
    ∃ p s, h = p ++ n ++ s := by
  induction h with
  | nil =>
    cases n with
    | nil => exact ⟨[], [], rfl⟩
    | cons a as => simp [occursIn, List.isEmpty] at hh
  | cons c r ih =>
    simp only [occursIn, Bool.or_eq_true] at hh
    rcases hh with h1 | h2
    · obtain ⟨t, ht⟩ := isPrefixOf_exists h1
      exact ⟨[], t, by simp [ht]⟩
    · obtain ⟨p, s, rfl⟩ := ih h2
      exact ⟨c :: p, s, rfl⟩

/-- A substring cannot contain more copies of a character than the string. -/
theorem count_le_of_occursIn {n h : List Char} (c : Char)
    (hh : occursIn n h = true) : n.count c ≤ h.count c := by
  obtain ⟨p, s, rfl⟩ := occursIn_exists hh
  simp only [List.count_append]
  omega

/-- A string with a single `*` cannot contain the `/*/*/*` pattern. -/
theorem occursIn_threeStars_eq_false {sect : List Char}
    (h : sect.count '*' = 1) : occursIn threeStarsPat sect = false := by
  cases hb : occursIn threeStarsPat sect with
  | false => rfl
  | true =>
    have h3 := count_le_of_occursIn '*' hb
    rw [h] at h3
    have hc : threeStarsPat.count '*' = 3 := by decide
    omega

/-- Splitting on a character absent from the list returns the list whole. -/
theorem splitOnChar_not_mem {c : Char} {l : List Char} (h : c ∉ l) :
    splitOnChar c l = [l] := by
  induction l with
  | nil => rfl
  | cons x xs ih =>
    have hx : ¬x = c := by rintro rfl; exact h (List.mem_cons_self _ _)
    have hxs : c ∉ xs := fun hm => h (List.mem_cons_of_mem _ hm)
    simp [splitOnChar, if_neg hx, ih hxs]

/-- Splitting at the first occurrence of the separator peels off the prefix. -/
theorem splitOnChar_append {c : Char} {p r : List Char} (h : c ∉ p) :
    splitOnChar c (p ++ c :: r) = p :: splitOnChar c r := by
  induction p with
  | nil => simp [splitOnChar]
  | cons x xs ih =>
    have hx : ¬x = c := by rintro rfl; exact h (List.mem_cons_self _ _)
    have hxs : c ∉ xs := fun hm => h (List.mem_cons_of_mem _ hm)
    rw [List.cons_append]
    simp [splitOnChar, if_neg hx, ih hxs]

/-- Replacing zero occurrences changes nothing. -/
theorem replacen_zero {a b : Char} (l : List Char) : replacen a b 0 l = l := by
  cases l <;> rfl

/-- `replacen` skips over a prefix free of the replaced character. -/
theorem replacen_append_not_mem {a b : Char} {p : List Char} (r : List Char)
    (n : Nat) (h : a ∉ p) : replacen a b n (p ++ r) = p ++ replacen a b n r := by
  induction p with
  | nil => rfl
  | cons x xs ih =>
    have hx : ¬x = a := by rintro rfl; exact h (List.mem_cons_self _ _)
    have hxs : a ∉ xs := fun hm => h (List.mem_cons_of_mem _ hm)
    cases n with
    | zero => simp [replacen_zero]
    | succ m =>
      rw [List.cons_append]
      simp [replacen, if_neg hx, ih hxs]

/-- Dropping whitespace from a fully non-whitespace list is the identity. -/
theorem dropWhile_isWs_eq_self {l : List Char} (h : ∀ c ∈ l, isWs c = false) :
    l.dropWhile isWs = l := by
  cases l with
  | nil => rfl
  | cons x xs => simp [List.dropWhile_cons, h x (List.mem_cons_self _ _)]

/-- Trimming a fully non-whitespace list is the identity. -/
theorem trim_eq_self {l : List Char} (h : ∀ c ∈ l, isWs c = false) : trim l = l := by
  unfold trim
  rw [dropWhile_isWs_eq_self h,
    dropWhile_isWs_eq_self (fun c hc => h c (List.mem_reverse.mp hc)),
    List.reverse_reverse]

/-- Trimming the space-separated shape produced by the single-wildcard branch
removes exactly the leading space. -/
theorem trim_space_shape {m rest : List Char} (hm : m ≠ [])
    (hmw : ∀ c ∈ m, isWs c = false) (hrw : ∀ c ∈ rest, isWs c = false)
    (hr : rest ≠ []) :
    trim (' ' :: (m ++ ' ' :: rest)) = m ++ ' ' :: rest := by
  unfold trim
  have h1 : (' ' :: (m ++ ' ' :: rest)).dropWhile isWs = m ++ ' ' :: rest := by
    rw [List.dropWhile_cons]
    simp only [show isWs ' ' = true from rfl, if_true]
    cases m with
    | nil => cases hm rfl
    | cons x xs =>
      rw [List.cons_append, List.dropWhile_cons,
        hmw x (List.mem_cons_self _ _)]
      simp
  rw [h1]
  have hrrev : rest.reverse ≠ [] := by
    simpa using hr
  obtain ⟨r0, rt, hrev⟩ := List.exists_cons_of_ne_nil hrrev
  have hr0 : isWs r0 = false := by
    have hmem : r0 ∈ rest.reverse := by rw [hrev]; exact List.mem_cons_self _ _
    exact hrw r0 (List.mem_reverse.mp hmem)
  have h2 : (m ++ ' ' :: rest).reverse = r0 :: (rt ++ ' ' :: m.reverse) := by
    rw [List.reverse_append, List.reverse_cons, hrev]
    simp
  rw [h2, List.dropWhile_cons, hr0]
  simp [← h2]

/-! ### Claim C3 -/

/-- C3: for every permission-source string of the single-wildcard shape
`<prefix>*/<METHOD>/<path...>` (exactly one `*`, hence no `/*/*/*`), the Route
Pattern Resolver returns the pair whose first component is `<METHOD>` and
whose second is `/` followed by `<path...>` verbatim, including any query
string and fragment the path carries.  The shape hypotheses say the method
segment is a nonempty slash-free whitespace-free token and the remainder is
nonempty and whitespace-free (and the string carries no interior double
quotes, which the resolver strips). -/
theorem c3_single_wildcard_resolution (pre m rest : List Char)
    (hq : quoteChar ∉ pre ++ '*' :: '/' :: (m ++ '/' :: rest))
    (hpre : '*' ∉ pre)
    (hm_star : '*' ∉ m) (hm_slash : '/' ∉ m) (hm_ne : m ≠ [])
    (hm_ws : ∀ c ∈ m, isWs c = false)
    (hrest_star : '*' ∉ rest) (hrest_ne : rest ≠ [])
    (hrest_ws : ∀ c ∈ rest, isWs c = false) :
    handle_api_gateway_lambda (pre ++ '*' :: '/' :: (m ++ '/' :: rest))
      = .ok [m, '/' :: rest] [] := by
  have hfil := filter_quote_eq_self hq
  have htail : '*' ∉ '/' :: (m ++ '/' :: rest) := by
    intro hmem
    rcases List.mem_cons.mp hmem with h | h
    · exact absurd h (by decide)
    · rcases List.mem_append.mp h with h | h
      · exact hm_star h
      · rcases List.mem_cons.mp h with h | h
        · exact absurd h (by decide)
        · exact hrest_star h
  have hcount : (pre ++ '*' :: '/' :: (m ++ '/' :: rest)).count '*' = 1 := by
    rw [List.count_append, List.count_cons_self,
      List.count_eq_zero.mpr hpre, List.count_eq_zero.mpr htail]
  have hmem : '*' ∈ pre ++ '*' :: '/' :: (m ++ '/' :: rest) :=
    List.mem_append_right _ (List.mem_cons_self _ _)
  have h3 := occursIn_threeStars_eq_false hcount
  have hm_sp : ' ' ∉ m := fun hsp => by
    have := hm_ws ' ' hsp; simp [isWs] at this
  have hr_sp : ' ' ∉ rest := fun hsp => by
    have := hrest_ws ' ' hsp; simp [isWs] at this
  unfold handle_api_gateway_lambda
  rw [hfil]
  unfold handle_section
  rw [if_neg (by simp [h3]), if_pos ⟨hmem, hcount⟩]
  have hsplit : splitOnChar '*' (pre ++ '*' :: '/' :: (m ++ '/' :: rest))
      = [pre, '/' :: (m ++ '/' :: rest)] := by
    rw [splitOnChar_append hpre, splitOnChar_not_mem htail]
  have hrepl : replacen '/' ' ' 2 ('/' :: (m ++ '/' :: rest))
      = ' ' :: (m ++ ' ' :: rest) := by
    have e1 : replacen '/' ' ' 2 ('/' :: (m ++ '/' :: rest))
        = ' ' :: replacen '/' ' ' 1 (m ++ '/' :: rest) := by
      simp [replacen]
    have e2 : replacen '/' ' ' 1 ('/' :: rest) = ' ' :: replacen '/' ' ' 0 rest := by
      simp [replacen]
    rw [e1, replacen_append_not_mem _ 1 hm_slash, e2, replacen_zero]
  have hdata : splitOnChar ' '
      (trim (replacen '/' ' ' 2 ('/' :: (m ++ '/' :: rest)))) = [m, rest] := by
    rw [hrepl, trim_space_shape hm_ne hm_ws hrest_ws hrest_ne,
      splitOnChar_append hm_sp, splitOnChar_not_mem hr_sp]
  unfold single_star_branch
  simp only [hsplit, List.getD]
  simp only [show ([pre, '/' :: (m ++ '/' :: rest)].get? 1).getD []
      = '/' :: (m ++ '/' :: rest) from rfl]
  rw [hdata]
  simp [trim_eq_self hrest_ws]

/-- C3 witness: the theorem applied at the concrete permission string
`x*/GET/health`, which the resolver turns into `GET` and `/health`. -/
theorem c3_witness :
    handle_api_gateway_lambda ("x*/GET/health".data)
      = .ok ["GET".data, "/health".data] [] := by
  have h := c3_single_wildcard_resolution "x".data "GET".data "health".data
    (by decide) (by decide) (by decide) (by decide) (by decide) (by decide)
    (by decide) (by decide) (by decide)
  simpa using h

/-! ### Claim C8 -/

/-- C8 counterexample: the permission string `a}/foo/bar` reaches the
fallback (no wildcard shape) and contains none of the five method tokens; the
resolver then aborts with the `todo!` panic rather than returning any error
value, contradicting the claim that it fails with a
`PatternError::UnsupportedMethod` error returned as a value. -/
theorem c8_counterexample :
    handle_api_gateway_lambda ("a\x7d/foo/bar".data) = .panic caterMsg []
      ∧ ∀ (msg : List Char) (d : List Diag),
          handle_api_gateway_lambda ("a\x7d/foo/bar".data) ≠ .err msg d := by
  refine ⟨by decide, ?_⟩
  intro msg d h
  rw [show handle_api_gateway_lambda ("a\x7d/foo/bar".data) = .panic caterMsg []
    from by decide] at h
  exact RunResult.noConfusion h

/-- C8 amended: a quote-free permission string that is not rejected as too
permissive, matches neither wildcard shape, and has a second `}`-delimited
part, is handed to the method-token scan of that trimmed part; when none of
GET, POST, PUT, DELETE, PATCH occurs there the resolver panics via `todo!`
(instead of returning an error value, as the claim stated), and otherwise the
first token found fixes the method while the path is the trimmed part with
every `/<METHOD>` occurrence deleted. -/
theorem c8_fallback_scan (s : List Char) (hq : quoteChar ∉ s)
    (h1 : occursIn threeStarsPat s = false)
    (h2 : ¬('*' ∈ s ∧ s.count '*' = 1))
    (h3 : ¬('*' ∈ s ∧ s.count '*' = 2 ∧ occursIn twoStarsPat s = true))
    (hp : 2 ≤ (splitOnChar '}' s).length) :
    (handle_api_gateway_lambda s
        = fallbackScan (trim ((splitOnChar '}' s).getD 1 [])))
      ∧ (∀ line : List Char,
          occursIn (methodDisplay .get) line = false →
          occursIn (methodDisplay .post) line = false →
          occursIn (methodDisplay .put) line = false →
          occursIn (methodDisplay .delete) line = false →
          occursIn (methodDisplay .patch) line = false →
          fallbackScan line = .panic caterMsg [])
      ∧ (∀ (line : List Char) (mth : HttpMethod), firstFive line = some mth →
          fallbackScan line
            = .ok [methodDisplay mth,
                removeSubAll ('/' :: methodDisplay mth) line] []) := by
  refine ⟨?_, ?_, ?_⟩
  · unfold handle_api_gateway_lambda
    rw [filter_quote_eq_self hq]
    unfold handle_section
    rw [if_neg (by simp [h1]), if_neg h2, if_neg (by simpa using h3)]
    unfold fallback_branch
    rw [if_pos hp]
  · intro line hg hpo hpu hd hpa
    unfold fallbackScan extract_api_and_method
    rw [if_neg (by simp [hg]), if_neg (by simp [hpo]), if_neg (by simp [hpu]),
      if_neg (by simp [hd]), if_neg (by simp [hpa])]
  · intro line mth hff
    unfold firstFive at hff
    unfold fallbackScan extract_api_and_method
    by_cases hg : occursIn (methodDisplay .get) line = true
    · rw [if_pos hg] at hff ⊢
      cases hff
      rfl
    · rw [if_neg hg] at hff
      rw [if_neg hg]
      by_cases hpo : occursIn (methodDisplay .post) line = true
      · rw [if_pos hpo] at hff
        rw [if_pos hpo]
        cases hff
        rfl
      · rw [if_neg hpo] at hff
        rw [if_neg hpo]
        by_cases hpu : occursIn (methodDisplay .put) line = true
        · rw [if_pos hpu] at hff
          rw [if_pos hpu]
          cases hff
          rfl
        · rw [if_neg hpu] at hff
          rw [if_neg hpu]
          by_cases hd : occursIn (methodDisplay .delete) line = true
          · rw [if_pos hd] at hff
            rw [if_pos hd]
            cases hff
            rfl
          · rw [if_neg hd] at hff
            rw [if_neg hd]
            by_cases hpa : occursIn (methodDisplay .patch) line = true
            · rw [if_pos hpa] at hff
              rw [if_pos hpa]
              cases hff
              rfl
            · rw [if_neg hpa] at hff
              exact absurd hff (by simp)

/-- C8 witness: the theorem applied to `a}/foo/GET/bar`, whose trimmed second
part contains `GET`; the resolver returns `GET` with the `/GET` segment
stripped. -/
theorem c8_witness :
    handle_api_gateway_lambda ("a\x7d/foo/GET/bar".data)
      = fallbackScan (trim ((splitOnChar '}' ("a\x7d/foo/GET/bar".data)).getD 1 []))
      ∧ fallbackScan ("/foo/GET/bar".data)
          = .ok ["GET".data, "/foo/bar".data] [] := by
  have h := c8_fallback_scan ("a\x7d/foo/GET/bar".data) (by decide) (by decide)
    (by decide) (by decide) (by decide)
  refine ⟨h.1, ?_⟩
  have h2 := h.2.2 ("/foo/GET/bar".data) .get (by decide)
  simpa using h2

/-! ### Claim C9 -/

/-- C9: the Reconciliation Engine is a pure function of the two model lists —
the source keeps all its state (the `valid` flag) local to one call and
touches no global mutable state — so two runs on the same pair of inputs
produce identical diagnostics and the identical verdict. -/
theorem c9_reconciliation_deterministic (lambda_data : List Lambda)
    (open_api_data : List OpenAPIData) :
    cross_validation lambda_data open_api_data
        = cross_validation lambda_data open_api_data
      ∧ cross_validation_result lambda_data open_api_data
          = cross_validation_result lambda_data open_api_data :=
  ⟨rfl, rfl⟩

/-- C9 witness: the determinism theorem applied at a concrete pair. -/
theorem c9_witness :
    cross_validation [] [] = cross_validation [] [] :=
  (c9_reconciliation_deterministic [] []).1

/-! ### Claim C10 -/

/-- C10: `HttpMethod::from` (src/util.rs) yields a method exactly for the
nine recognized names and panics ("Invalid HTTP method") on everything else;
consequently the permission stage, fed a permission entry whose `source_arn`
has the single-wildcard shape `arn/*/FOO/x` with the unrecognized segment
`FOO`, aborts with that panic instead of returning an error value. -/
theorem c10_method_conversion_panics :
    (∀ s : List Char,
        methodFromString s = none ↔ s.map Char.toLower ∉ recognizedMethodNames)
      ∧ validate_lambda_permissions "ctx".data
          [("k".data, PermExpr.arr [PermItem.obj
            [("principal".data, quoteChar :: ("apigateway.amazonaws.com".data ++ [quoteChar])),
             ("source_arn".data, quoteChar :: ("arn/*/FOO/x".data ++ [quoteChar]))]])]
          [⟨"k".data, "h".data, false, [], none, .apiGateway⟩]
        = .panic invalidHttpMethodMsg [] := by
  constructor
  · intro s
    simp only [methodFromString, recognizedMethodNames, List.mem_cons,
      List.not_mem_nil, or_false]
    split_ifs with h1 h2 h3 h4 h5 h6 h7 h8 h9 <;> simp_all
  · decide

/-! ### Pass combinator lemmas -/

/-- In a map/all pass, one failing element makes the aggregate flag false. -/
theorem passFlag_false {α : Type} (f : α → Bool × List Diag) (xs : List α) (x : α)
    (hx : x ∈ xs) (hf : (f x).1 = false) :
    (xs.map f).all (fun r => r.1) = false := by
  cases hb : (xs.map f).all (fun r => r.1) with
  | false => rfl
  | true =>
    have ht := List.all_eq_true.mp hb _ (List.mem_map_of_mem f hx)
    rw [hf] at ht
    exact Bool.noConfusion ht

/-- In a map/flatten pass, each element's diagnostics survive into the
aggregate list. -/
theorem passDiag_mem {α : Type} (f : α → Bool × List Diag) (xs : List α) (x : α)
    (hx : x ∈ xs) {d : Diag} (hd : d ∈ (f x).2) :
    d ∈ ((xs.map f).map (fun r => r.2)).flatten := by
  refine List.mem_flatten.mpr ⟨(f x).2, ?_, hd⟩
  exact List.mem_map_of_mem _ (List.mem_map_of_mem f hx)

/-- The aggregate flag of a map/all pass is false exactly when some element
fails. -/
theorem passFlag_false_iff {α : Type} (f : α → Bool × List Diag) (xs : List α) :
    ((xs.map f).all (fun r => r.1) = false) ↔ ∃ x ∈ xs, (f x).1 = false := by
  constructor
  · intro h
    by_contra hno
    have hall : (xs.map f).all (fun r => r.1) = true := by
      rw [List.all_eq_true]
      intro r hr
      obtain ⟨x, hxmem, rfl⟩ := List.mem_map.mp hr
      cases hb : (f x).1 with
      | true => rfl
      | false => exact absurd ⟨x, hxmem, hb⟩ hno
    rw [hall] at h
    exact Bool.noConfusion h
  · rintro ⟨x, hxmem, hb⟩
    exact passFlag_false f xs x hxmem hb

/-! ### Claim C1 -/

/-- C1: whenever an endpoint matches a placeholder-bearing Function's route by
path and method and its backend is `Function` (`APIType::Lambda`), the
forward-pass check `validate_lambda_against_open_api` flips `valid` and
records the missing-placeholder error if the endpoint's URI lacks the ARN
placeholder; and the integration check
`validate_aws_api_gateway_integration`, given the matched operation's URI,
records the missing-placeholder error when the placeholder is absent and a
separate execution-type-mismatch error when the URI contains the
state-machine action marker. -/
theorem c1_forward_integration_errors :
    (∀ (open_api_data : List OpenAPIData) (arn_key lambda_key : List Char)
        (api : APIPath) (e : OpenAPIData),
      e ∈ open_api_data → e.path = api.route →
      (api.method = .any ∨ e.method = api.method) →
      e.execution_type = .lambda → occursIn arn_key e.uri = false →
      (validate_lambda_against_open_api open_api_data arn_key lambda_key api).1 = false
        ∧ Diag.uriMissingArn arn_key api.method api.route lambda_key
            ∈ (validate_lambda_against_open_api open_api_data arn_key lambda_key api).2)
    ∧ (∀ (config : Operation) (lambda_key arn_key : List Char) (api : APIPath)
        (u : List Char), config.integration = some ⟨some (.str u)⟩ →
      (occursIn arn_key u = false →
        ∃ v d, validate_aws_api_gateway_integration config lambda_key arn_key api = .ok v d
          ∧ v = false
          ∧ Diag.intUriMissingArn arn_key api.method api.route lambda_key ∈ d)
      ∧ (occursIn stateActionPat u = true →
        ∃ v d, validate_aws_api_gateway_integration config lambda_key arn_key api = .ok v d
          ∧ v = false
          ∧ Diag.intUriStepFunction api.method api.route lambda_key ∈ d)) := by
  constructor
  · intro data arn_key lambda_key api e hmem hpath hmethod hexec huri
    simp only [validate_lambda_against_open_api]
    have he1 : e ∈ data.filter (fun x => x.path == api.route) :=
      List.mem_filter.mpr ⟨hmem, by simp [hpath]⟩
    have hne1 : data.filter (fun x => x.path == api.route) ≠ [] := by
      intro hnil
      rw [hnil] at he1
      exact List.not_mem_nil _ he1
    rw [if_neg hne1]
    have hcond : ((api.method == HttpMethod.any) || (e.method == api.method)) = true := by
      rcases hmethod with h | h <;> simp [h]
    have he2 : e ∈ (data.filter (fun x => x.path == api.route)).filter
        (fun x => (api.method == HttpMethod.any) || (x.method == api.method)) :=
      List.mem_filter.mpr ⟨he1, hcond⟩
    have hne2 : (data.filter (fun x => x.path == api.route)).filter
        (fun x => (api.method == HttpMethod.any) || (x.method == api.method)) ≠ [] := by
      intro hnil
      rw [hnil] at he2
      exact List.not_mem_nil _ he2
    rw [if_neg hne2]
    have hdiag : Diag.uriMissingArn arn_key api.method api.route lambda_key
        ∈ ((data.filter (fun x => x.path == api.route)).filter
            (fun x => (api.method == HttpMethod.any) || (x.method == api.method))).filterMap
          (fun x => if x.execution_type = APIType.lambda ∧ occursIn arn_key x.uri = false then
            some (Diag.uriMissingArn arn_key api.method api.route lambda_key) else none) := by
      rw [List.mem_filterMap]
      exact ⟨e, he2, by rw [if_pos ⟨hexec, huri⟩]⟩
    refine ⟨?_, hdiag⟩
    cases herrs : ((data.filter (fun x => x.path == api.route)).filter
        (fun x => (api.method == HttpMethod.any) || (x.method == api.method))).filterMap
          (fun x => if x.execution_type = APIType.lambda ∧ occursIn arn_key x.uri = false then
            some (Diag.uriMissingArn arn_key api.method api.route lambda_key) else none) with
    | nil =>
      rw [herrs] at hdiag
      exact absurd hdiag (List.not_mem_nil _)
    | cons a l => rfl
  · intro config lambda_key arn_key api u hint
    simp only [validate_aws_api_gateway_integration, hint]
    constructor
    · intro huri
      have hne : ¬(occursIn arn_key u = true) := by
        rw [huri]; exact Bool.false_ne_true
      refine ⟨_, _, rfl, ?_, ?_⟩
      · rw [if_neg hne]
        rfl
      · rw [if_neg hne]
        exact List.mem_append_left _ (List.mem_cons_self _ _)
    · intro hstate
      refine ⟨_, _, rfl, ?_, ?_⟩
      · rw [if_pos hstate]
        simp
      · rw [if_pos hstate]
        exact List.mem_append_right _ (List.mem_cons_self _ _)

/-- C1 witness: the theorem applied at a matched GET `/t` lambda-backed
endpoint whose URI `uri` lacks the placeholder `arn`, and at an operation
whose URI is exactly the state-machine action marker. -/
theorem c1_witness :
    (validate_lambda_against_open_api
        [⟨"/t".data, .get, "uri".data, .lambda⟩] "arn".data "k".data
        ⟨.get, "/t".data⟩).1 = false
    ∧ ∃ v d, validate_aws_api_gateway_integration
        ⟨some ⟨some (.str "state:action".data)⟩, false, false⟩
        "k".data "arn".data ⟨.get, "/t".data⟩ = .ok v d
        ∧ v = false ∧ Diag.intUriStepFunction .get "/t".data "k".data ∈ d := by
  constructor
  · exact (c1_forward_integration_errors.1
      [⟨"/t".data, .get, "uri".data, .lambda⟩] "arn".data "k".data
      ⟨.get, "/t".data⟩ ⟨"/t".data, .get, "uri".data, .lambda⟩
      (List.mem_cons_self _ _) rfl (Or.inr rfl) rfl (by decide)).1
  · exact (c1_forward_integration_errors.2
      ⟨some ⟨some (.str "state:action".data)⟩, false, false⟩
      "k".data "arn".data ⟨.get, "/t".data⟩ "state:action".data rfl).2 (by decide)

/-! ### Claim C2 -/

/-- The `filtered_lambdas` collection of the reverse pass: methods of every
route across all lambdas whose path equals the given path. -/
def collectedMethods (lambda_data : List Lambda) (path : List Char) : List HttpMethod :=
  (((lambda_data.map (fun l => l.apis)).flatten).filter
    (fun a => a.route == path)).map (fun a => a.method)

/-- C2: in the reverse pass, a Lambda-backed endpoint whose path matches no
route yields the path-not-declared error, and one whose path matches but
whose method is neither among the collected methods nor covered by a
wildcard route yields the method-not-declared error — in both cases flipping
the verdict; moreover the diagnostics of `cross_validation` are exactly the
forward-pass diagnostics followed by the reverse-pass diagnostics, so the
reverse pass runs in addition to (and independently of) the forward pass. -/
theorem c2_reverse_pass (lambda_data : List Lambda) (open_api_data : List OpenAPIData)
    (e : OpenAPIData) (he : e ∈ open_api_data) (hexec : e.execution_type = .lambda) :
    ((collectedMethods lambda_data e.path = [] →
        (cross_validation_rev lambda_data open_api_data).1 = false
          ∧ Diag.pathNotInTerraform e.path
              ∈ (cross_validation_rev lambda_data open_api_data).2)
      ∧ (collectedMethods lambda_data e.path ≠ [] →
          e.method ∉ collectedMethods lambda_data e.path →
          HttpMethod.any ∉ collectedMethods lambda_data e.path →
          (cross_validation_rev lambda_data open_api_data).1 = false
            ∧ Diag.methodNotInTerraform e.method e.path
                ∈ (cross_validation_rev lambda_data open_api_data).2))
    ∧ cross_validation lambda_data open_api_data
        = ((cross_validation_fwd lambda_data open_api_data).1
             && (cross_validation_rev lambda_data open_api_data).1,
           (cross_validation_fwd lambda_data open_api_data).2
             ++ (cross_validation_rev lambda_data open_api_data).2) := by
  obtain ⟨p, mm, uu, ex⟩ := e
  simp only at hexec
  subst hexec
  have hms : ∀ lapis, (rev_endpoint lapis ⟨p, mm, uu, .lambda⟩)
      = (let ms := (lapis.filter (fun a => a.route == p)).map (fun a => a.method)
         if ms = [] then (false, [Diag.pathNotInTerraform p])
         else if mm ∉ ms ∧ HttpMethod.any ∉ ms then
           (false, [Diag.methodNotInTerraform mm p])
         else (true, [])) := fun _ => rfl
  refine ⟨⟨?_, ?_⟩, rfl⟩
  · intro hnil
    simp only [collectedMethods] at hnil
    have hflag : (rev_endpoint ((lambda_data.map (fun l => l.apis)).flatten)
        ⟨p, mm, uu, .lambda⟩).1 = false := by
      rw [hms]
      simp only [hnil]
      rfl
    have hdiag : Diag.pathNotInTerraform p
        ∈ (rev_endpoint ((lambda_data.map (fun l => l.apis)).flatten)
            ⟨p, mm, uu, .lambda⟩).2 := by
      rw [hms]
      simp only [hnil]
      exact List.mem_cons_self _ _
    exact ⟨passFlag_false _ open_api_data _ he hflag,
      passDiag_mem _ open_api_data _ he hdiag⟩
  · intro hne hm ha
    simp only [collectedMethods] at hne hm ha
    have hflag : (rev_endpoint ((lambda_data.map (fun l => l.apis)).flatten)
        ⟨p, mm, uu, .lambda⟩).1 = false := by
      rw [hms]
      simp only [if_neg hne, if_pos (And.intro hm ha)]
    have hdiag : Diag.methodNotInTerraform mm p
        ∈ (rev_endpoint ((lambda_data.map (fun l => l.apis)).flatten)
            ⟨p, mm, uu, .lambda⟩).2 := by
      rw [hms]
      simp only [if_neg hne, if_pos (And.intro hm ha)]
      exact List.mem_cons_self _ _
    exact ⟨passFlag_false _ open_api_data _ he hflag,
      passDiag_mem _ open_api_data _ he hdiag⟩

/-- C2 witness: a lambda-backed POST `/t` endpoint with a single GET `/t`
route yields the method-not-declared error and flips the verdict. -/
theorem c2_witness :
    (cross_validation_rev
        [⟨"k".data, "h".data, false, [⟨.get, "/t".data⟩], some "a".data, .apiGateway⟩]
        [⟨"/t".data, .post, "u".data, .lambda⟩]).1 = false
      ∧ Diag.methodNotInTerraform .post "/t".data
          ∈ (cross_validation_rev
              [⟨"k".data, "h".data, false, [⟨.get, "/t".data⟩], some "a".data, .apiGateway⟩]
              [⟨"/t".data, .post, "u".data, .lambda⟩]).2 := by
  exact ((c2_reverse_pass
    [⟨"k".data, "h".data, false, [⟨.get, "/t".data⟩], some "a".data, .apiGateway⟩]
    [⟨"/t".data, .post, "u".data, .lambda⟩]
    ⟨"/t".data, .post, "u".data, .lambda⟩
    (List.mem_cons_self _ _) rfl).1.2 (by decide) (by decide) (by decide))

/-! ### Claim C7 -/

/-- The per-lambda coherence flag is false exactly when permissions exist but
no gateway placeholder was assigned — independently of `step_function`. -/
theorem coherence_lambda_flag (l : Lambda) :
    (coherence_lambda l).1 = false ↔ (l.arn_template_key = none ∧ l.apis ≠ []) := by
  simp only [coherence_lambda]
  split_ifs with hc1 <;> simp_all

/-- The coherence pass verdict is a failure exactly when some lambda has
permissions but no gateway placeholder. -/
theorem coherence_pass_flag (lambda_data : List Lambda) :
    (coherence_pass lambda_data).1 = false
      ↔ ∃ l ∈ lambda_data, l.arn_template_key = none ∧ l.apis ≠ [] := by
  have hdef : (coherence_pass lambda_data).1
      = (lambda_data.map coherence_lambda).all (fun r => r.1) := rfl
  rw [hdef, passFlag_false_iff]
  constructor
  · rintro ⟨l, hmem, hflag⟩
    exact ⟨l, hmem, (coherence_lambda_flag l).mp hflag⟩
  · rintro ⟨l, hmem, hcond⟩
    exact ⟨l, hmem, (coherence_lambda_flag l).mpr hcond⟩

/-- C7 counterexample: a step-function-linked lambda with a route but no
placeholder does receive the "not used in API gateway" error (the code's
condition never consults `step_function`), contradicting the claim. -/
theorem c7_counterexample :
    coherence_pass [⟨"k".data, "h".data, true, [⟨.get, "/x".data⟩], none, .apiGateway⟩]
        = (false, [Diag.lambdaNotUsedInApiGw "k".data])
      ∧ Diag.lambdaNotUsedInApiGw "k".data
          ∈ (coherence_pass
              [⟨"k".data, "h".data, true, [⟨.get, "/x".data⟩], none, .apiGateway⟩]).2 := by
  refine ⟨by decide, by decide⟩

/-- C7 amended: the "wired to gateway permissions but never assigned a
placeholder" error is recorded for a Function exactly when its gateway
placeholder is unset and its routes list is non-empty, regardless of
`step_function_linked` (so a step-function-linked Function with routes but no
placeholder does get it); and only this error makes the coherence pass return
a failure. -/
theorem c7_coherence_error_condition :
    (∀ l : Lambda,
        Diag.lambdaNotUsedInApiGw l.key ∈ (coherence_lambda l).2
          ↔ (l.arn_template_key = none ∧ l.apis ≠ []))
      ∧ (∀ lambda_data : List Lambda,
          ((coherence_pass lambda_data).1 = false
            ↔ ∃ l ∈ lambda_data, l.arn_template_key = none ∧ l.apis ≠ []))
      ∧ (∀ lambda_data : List Lambda,
          (coherence_result lambda_data = .error invalidTerraformMsg
            ↔ ∃ l ∈ lambda_data, l.arn_template_key = none ∧ l.apis ≠ [])) := by
  refine ⟨?_, coherence_pass_flag, ?_⟩
  · intro l
    simp only [coherence_lambda]
    split_ifs with hc1 hc2 hc3 <;> simp_all
  · intro lambda_data
    unfold coherence_result
    constructor
    · intro h
      cases hb : (coherence_pass lambda_data).1 with
      | true => rw [if_pos hb] at h; exact Except.noConfusion h
      | false => exact (coherence_pass_flag lambda_data).mp hb
    · intro hex
      rw [if_neg ?_]
      rw [Bool.not_eq_true]
      exact (coherence_pass_flag lambda_data).mpr hex

/-- C7 witness: the amended condition applied at a lambda with a route and no
placeholder. -/
theorem c7_witness :
    Diag.lambdaNotUsedInApiGw "k".data
      ∈ (coherence_lambda
          ⟨"k".data, "h".data, true, [⟨.get, "/x".data⟩], none, .apiGateway⟩).2 := by
  exact (c7_coherence_error_condition.1
    ⟨"k".data, "h".data, true, [⟨.get, "/x".data⟩], none, .apiGateway⟩).mpr
    ⟨rfl, by decide⟩

/-! ### Claim C6 -/

/-- C6 counterexample: a specification declaring only an OPTIONS operation
(with a well-formed lambda integration) builds successfully into an empty
endpoint list — the operation is silently skipped, not rejected with an
unsupported-method error as the claim states. -/
theorem c6_counterexample :
    extract_api_data [("/t".data,
        ⟨none, none, none, none,
          some ⟨some ⟨some (.str "lambda:path".data)⟩, true, true⟩, none, none, none⟩)]
      = .ok [] []
    ∧ ∀ (msg : List Char) (d : List Diag),
        extract_api_data [("/t".data,
            ⟨none, none, none, none,
              some ⟨some ⟨some (.str "lambda:path".data)⟩, true, true⟩, none, none, none⟩)]
          ≠ .err msg d := by
  refine ⟨by decide, ?_⟩
  intro msg d h
  rw [show extract_api_data [("/t".data,
      ⟨none, none, none, none,
        some ⟨some ⟨some (.str "lambda:path".data)⟩, true, true⟩, none, none, none⟩)]
    = .ok [] [] from by decide] at h
  exact RunResult.noConfusion h

/-- C6 amended: the model builder never visits the `options`, `head` and
`trace` slots of a path item, so operations declared with those methods are
silently skipped (the builder's result is unchanged by them); the helper
`extract_api_data_for_item` does reject such a method with the
"Http method should not be used" error when handed one, but the builder
never hands it one. -/
theorem c6_unsupported_methods_skipped :
    (∀ (p : List Char) (item : PathItem) (rest : List (List Char × PathItem))
        (o h t : Option Operation),
      extract_api_data ((p, { item with options := o, head := h, trace := t }) :: rest)
        = extract_api_data ((p, { item with options := none, head := none, trace := none })
            :: rest))
    ∧ (∀ (item : Operation) (p u : List Char),
        item.integration = some ⟨some (.str u)⟩ →
        extract_api_data_for_item item p .head = .err httpMethodNotUsedMsg []) := by
  constructor
  · intro p item rest o h t
    rfl
  · intro item p u hint
    simp only [extract_api_data_for_item, hint]

/-- C6 witness: the helper applied at a head operation with a string URI. -/
theorem c6_witness :
    extract_api_data_for_item ⟨some ⟨some (.str "u".data)⟩, true, true⟩ "/t".data .head
      = .err httpMethodNotUsedMsg [] :=
  c6_unsupported_methods_skipped.2 ⟨some ⟨some (.str "u".data)⟩, true, true⟩
    "/t".data "u".data rfl

/-! ### Fold lemmas for the forward loop of `main` -/

/-- From a completed `runAllBool`, each element completed too, its
diagnostics survive into the aggregate, and its failure forces aggregate
failure. -/
theorem runAllBool_ok_mem {α : Type} (f : α → RunResult Bool) (xs : List α)
    (v : Bool) (d : List Diag) (h : runAllBool f xs = .ok v d) (x : α) (hx : x ∈ xs) :
    ∃ vx dx, f x = .ok vx dx ∧ (∀ a ∈ dx, a ∈ d) ∧ (vx = false → v = false) := by
  induction xs generalizing v d with
  | nil => exact absurd hx (List.not_mem_nil x)
  | cons y ys ih =>
    simp only [runAllBool] at h
    cases hfy : f y with
    | err m1 d1 => rw [hfy] at h; exact RunResult.noConfusion h
    | panic m1 d1 => rw [hfy] at h; exact RunResult.noConfusion h
    | ok v1 d1 =>
      rw [hfy] at h
      simp only [RunResult.andThen] at h
      cases hrec : runAllBool f ys with
      | err m2 d2 => rw [hrec] at h; exact RunResult.noConfusion h
      | panic m2 d2 => rw [hrec] at h; exact RunResult.noConfusion h
      | ok v2 d2 =>
        rw [hrec] at h
        simp only [List.append_nil] at h
        injection h with h1 h2
        subst h1
        subst h2
        rcases List.mem_cons.mp hx with rfl | hx2
        · exact ⟨v1, d1, hfy, fun a ha => List.mem_append_left _ ha,
            fun hv1 => by rw [hv1]; rfl⟩
        · obtain ⟨vx, dx, hfx, hsub, himp⟩ := ih v2 d2 hrec hx2
          exact ⟨vx, dx, hfx,
            fun a ha => List.mem_append_right _ (hsub a ha),
            fun hvx => by rw [himp hvx, Bool.and_false]⟩

/-- Every diagnostic accumulated by a completed `runAllBool` was emitted by
some element's own completed run. -/
theorem runAllBool_ok_diags_from {α : Type} (f : α → RunResult Bool) (xs : List α)
    (v : Bool) (d : List Diag) (h : runAllBool f xs = .ok v d) (a : Diag) (ha : a ∈ d) :
    ∃ x ∈ xs, ∃ vx dx, f x = .ok vx dx ∧ a ∈ dx := by
  induction xs generalizing v d with
  | nil =>
    simp only [runAllBool] at h
    injection h with h1 h2
    subst h2
    exact absurd ha (List.not_mem_nil a)
  | cons y ys ih =>
    simp only [runAllBool] at h
    cases hfy : f y with
    | err m1 d1 => rw [hfy] at h; exact RunResult.noConfusion h
    | panic m1 d1 => rw [hfy] at h; exact RunResult.noConfusion h
    | ok v1 d1 =>
      rw [hfy] at h
      simp only [RunResult.andThen] at h
      cases hrec : runAllBool f ys with
      | err m2 d2 => rw [hrec] at h; exact RunResult.noConfusion h
      | panic m2 d2 => rw [hrec] at h; exact RunResult.noConfusion h
      | ok v2 d2 =>
        rw [hrec] at h
        simp only [List.append_nil] at h
        injection h with h1 h2
        subst h2
        rcases List.mem_append.mp ha with hm | hm
        · exact ⟨y, List.mem_cons_self _ _, v1, d1, hfy, hm⟩
        · obtain ⟨x, hxmem, vx, dx, hfx, hmx⟩ := ih v2 d2 hrec hm
          exact ⟨x, List.mem_cons_of_mem _ hxmem, vx, dx, hfx, hmx⟩

/-- The integration check never emits the placeholder-never-referenced
diagnostic. -/
theorem vAws_no_arnNotUsed (config : Operation) (lk ak : List Char) (api : APIPath)
    (v : Bool) (d : List Diag)
    (h : validate_aws_api_gateway_integration config lk ak api = .ok v d)
    (a : List Char) : Diag.arnNotUsed a ∉ d := by
  unfold validate_aws_api_gateway_integration at h
  cases hint : config.integration with
  | none =>
    rw [hint] at h
    injection h with h1 h2
    subst h2
    simp
  | some aws =>
    rw [hint] at h
    dsimp only at h
    cases huri : aws.uri with
    | none =>
      rw [huri] at h
      dsimp only at h
      injection h with h1 h2
      subst h2
      simp
    | some jv =>
      rw [huri] at h
      cases jv with
      | other =>
        dsimp only at h
        exact RunResult.noConfusion h
      | str u =>
        dsimp only at h
        injection h with h1 h2
        subst h2
        intro hmem
        rcases List.mem_append.mp hmem with hm | hm
        · by_cases hc : occursIn ak u = true
          · rw [if_pos hc] at hm
            exact List.not_mem_nil _ hm
          · rw [if_neg hc] at hm
            simp at hm
        · by_cases hc : occursIn stateActionPat u = true
          · rw [if_pos hc] at hm
            simp at hm
          · rw [if_neg hc] at hm
            exact List.not_mem_nil _ hm

/-- The per-route forward check of `main` never emits the
placeholder-never-referenced diagnostic. -/
theorem main_forward_api_no_arnNotUsed (doc : List (List Char × PathItem))
    (lk ak : List Char) (api : APIPath) (v : Bool) (d : List Diag)
    (h : main_forward_api doc lk ak api = .ok v d) (a : List Char) :
    Diag.arnNotUsed a ∉ d := by
  unfold main_forward_api at h
  cases hl : lookupPath doc api.route with
  | none =>
    rw [hl] at h
    dsimp only at h
    injection h with h1 h2
    subst h2
    simp
  | some item =>
    rw [hl] at h
    dsimp only at h
    cases hm : api.method with
    | get =>
      rw [hm] at h
      dsimp only at h
      cases hop : item.get with
      | some config => rw [hop] at h; dsimp only at h; exact vAws_no_arnNotUsed _ _ _ _ _ _ h a
      | none => rw [hop] at h; dsimp only at h; injection h with h1 h2; subst h2; simp
    | post =>
      rw [hm] at h
      dsimp only at h
      cases hop : item.post with
      | some config => rw [hop] at h; dsimp only at h; exact vAws_no_arnNotUsed _ _ _ _ _ _ h a
      | none => rw [hop] at h; dsimp only at h; injection h with h1 h2; subst h2; simp
    | put =>
      rw [hm] at h
      dsimp only at h
      cases hop : item.put with
      | some config => rw [hop] at h; dsimp only at h; exact vAws_no_arnNotUsed _ _ _ _ _ _ h a
      | none => rw [hop] at h; dsimp only at h; injection h with h1 h2; subst h2; simp
    | delete =>
      rw [hm] at h
      dsimp only at h
      cases hop : item.delete with
      | some config => rw [hop] at h; dsimp only at h; exact vAws_no_arnNotUsed _ _ _ _ _ _ h a
      | none => rw [hop] at h; dsimp only at h; injection h with h1 h2; subst h2; simp
    | patch =>
      rw [hm] at h
      dsimp only at h
      cases hop : item.patch with
      | some config => rw [hop] at h; dsimp only at h; exact vAws_no_arnNotUsed _ _ _ _ _ _ h a
      | none => rw [hop] at h; dsimp only at h; injection h with h1 h2; subst h2; simp
    | options =>
      rw [hm] at h
      dsimp only at h
      cases hop : item.options with
      | some config => rw [hop] at h; dsimp only at h; exact vAws_no_arnNotUsed _ _ _ _ _ _ h a
      | none => rw [hop] at h; dsimp only at h; injection h with h1 h2; subst h2; simp
    | head =>
      rw [hm] at h
      dsimp only at h
      cases hop : item.head with
      | some config => rw [hop] at h; dsimp only at h; exact vAws_no_arnNotUsed _ _ _ _ _ _ h a
      | none => rw [hop] at h; dsimp only at h; injection h with h1 h2; subst h2; simp
    | trace => rw [hm] at h; dsimp only at h; exact RunResult.noConfusion h
    | connect => rw [hm] at h; dsimp only at h; exact RunResult.noConfusion h
    | any => rw [hm] at h; dsimp only at h; exact RunResult.noConfusion h

/-- A completed per-lambda forward run with a placeholder absent from the
specification text ends invalid and emits the never-referenced diagnostic
exactly once. -/
theorem main_forward_key_count (doc : List (List Char × PathItem))
    (specText : List Char) (l : Lambda) (a : List Char)
    (ha : l.arn_template_key = some a) (h0 : countSub a specText = 0)
    (v : Bool) (d : List Diag) (h : main_forward_key doc specText l = .ok v d) :
    v = false ∧ d.count (Diag.arnNotUsed a) = 1 := by
  unfold main_forward_key at h
  rw [ha] at h
  dsimp only at h
  cases hrec : runAllBool (main_forward_api doc l.key a) l.apis with
  | err m1 d1 => rw [hrec] at h; exact RunResult.noConfusion h
  | panic m1 d1 => rw [hrec] at h; exact RunResult.noConfusion h
  | ok v1 d1 =>
    rw [hrec] at h
    simp only [RunResult.andThen, if_pos h0] at h
    injection h with h1 h2
    subst h1
    subst h2
    refine ⟨rfl, ?_⟩
    rw [List.count_append]
    have hz : d1.count (Diag.arnNotUsed a) = 0 := by
      rw [List.count_eq_zero]
      intro hmem
      obtain ⟨x, hxmem, vx, dx, hfx, hmx⟩ :=
        runAllBool_ok_diags_from _ _ _ _ hrec _ hmem
      exact main_forward_api_no_arnNotUsed _ _ _ _ _ _ hfx a hmx
    rw [hz, List.count_cons_self, List.count_nil]

/-! ### Claim C4 -/

/-- C4: for a lambda whose ARN placeholder has zero occurrences in the merged
specification text, `main`'s completed forward run over that lambda ends
invalid with exactly one never-referenced error, regardless of how its routes
fared; and whenever the whole validation phase completes, its verdict is
false, the never-referenced error is among the diagnostics, and `main`
returns the aggregate failure. -/
theorem c4_unused_placeholder (keys : List Lambda)
    (doc : List (List Char × PathItem)) (specText : List Char)
    (l : Lambda) (a : List Char) (hl : l ∈ keys)
    (ha : l.arn_template_key = some a) (h0 : countSub a specText = 0) :
    (∀ v d, main_forward_key doc specText l = .ok v d →
        v = false ∧ d.count (Diag.arnNotUsed a) = 1)
    ∧ (∀ v d, main_validate keys doc specText = .ok v d →
        v = false ∧ Diag.arnNotUsed a ∈ d
          ∧ main_result keys doc specText = .err invalidDocsMsg d) := by
  constructor
  · intro v d h
    exact main_forward_key_count doc specText l a ha h0 v d h
  · intro v d h
    cases hrec : runAllBool (main_forward_key doc specText) keys with
    | err m1 d1 =>
      unfold main_validate at h
      rw [hrec] at h
      dsimp only [RunResult.andThen] at h
      exact RunResult.noConfusion h
    | panic m1 d1 =>
      unfold main_validate at h
      rw [hrec] at h
      dsimp only [RunResult.andThen] at h
      exact RunResult.noConfusion h
    | ok v1 d1 =>
      have hmv : main_validate keys doc specText
          = .ok (v1 && (main_paths_check doc ((keys.map (fun l => l.apis)).flatten)).1)
                (d1 ++ (main_paths_check doc ((keys.map (fun l => l.apis)).flatten)).2) := by
        unfold main_validate
        rw [hrec]
        rfl
      rw [hmv] at h
      injection h with h1 h2
      subst h1
      subst h2
      obtain ⟨vx, dx, hfx, hsub, himp⟩ := runAllBool_ok_mem _ _ _ _ hrec l hl
      obtain ⟨hvf, hcnt⟩ := main_forward_key_count doc specText l a ha h0 vx dx hfx
      have hv1 : v1 = false := himp hvf
      have hmem : Diag.arnNotUsed a ∈ dx := by
        by_contra hnm
        rw [List.count_eq_zero.mpr hnm] at hcnt
        exact absurd hcnt (by omega)
      refine ⟨by rw [hv1]; rfl, List.mem_append_left _ (hsub _ hmem), ?_⟩
      unfold main_result
      rw [hmv, hv1]
      simp [RunResult.andThen]

/-- C4 witness: a single lambda with placeholder `a`, an empty document and
the specification text `x` (zero occurrences of `a`): the validation phase
ends invalid with exactly the one never-referenced error and `main` fails. -/
theorem c4_witness :
    main_validate [⟨"k".data, "h".data, false, [], some "a".data, .apiGateway⟩]
        [] "x".data = .ok false [Diag.arnNotUsed "a".data]
      ∧ (false = false ∧ Diag.arnNotUsed "a".data ∈ [Diag.arnNotUsed "a".data]
          ∧ main_result [⟨"k".data, "h".data, false, [], some "a".data, .apiGateway⟩]
              [] "x".data = .err invalidDocsMsg [Diag.arnNotUsed "a".data]) := by
  have hv : main_validate [⟨"k".data, "h".data, false, [], some "a".data, .apiGateway⟩]
      [] "x".data = .ok false [Diag.arnNotUsed "a".data] := by decide
  refine ⟨hv, ?_⟩
  exact (c4_unused_placeholder _ [] "x".data _ "a".data (List.mem_cons_self _ _)
    rfl (by decide)).2 false [Diag.arnNotUsed "a".data] hv

/-! ### Claim C5 -/

/-- A fold of all-successful steps completes successfully. -/
theorem runAllBool_total {α : Type} (f : α → RunResult Bool) (xs : List α)
    (h : ∀ x ∈ xs, ∃ vx dx, f x = .ok vx dx) :
    ∃ v d, runAllBool f xs = .ok v d := by
  induction xs with
  | nil => exact ⟨true, [], rfl⟩
  | cons y ys ih =>
    obtain ⟨vy, dy, hy⟩ := h y (List.mem_cons_self _ _)
    obtain ⟨v, d, hrec⟩ := ih (fun x hx => h x (List.mem_cons_of_mem _ hx))
    refine ⟨vy && v, dy ++ (d ++ []), ?_⟩
    simp only [runAllBool, hy, hrec, RunResult.andThen]

/-- An unmatched key occurring at most once in the raw text yields exactly
the extra-key error and an invalid flag. -/
theorem keyStep_unmatched (contents : List Char) (meta : List Lambda)
    (key : List Char) (hun : ¬ ∃ l ∈ meta, l.key = key)
    (hcnt : countSub key contents ≤ 1) :
    keyStep contents meta key = .ok false [Diag.extraPermissionKey key] := by
  unfold keyStep
  rw [if_neg hun, if_neg (by omega)]
  rfl

/-- Under the safety hypothesis (no unmatched key occurs more than once in
the raw text) every per-key step completes. -/
theorem keyStep_ok (contents : List Char) (meta : List Lambda) (key : List Char)
    (hsafe : (¬ ∃ l ∈ meta, l.key = key) → countSub key contents ≤ 1) :
    ∃ vx dx, keyStep contents meta key = .ok vx dx := by
  by_cases hmatch : ∃ l ∈ meta, l.key = key
  · unfold keyStep
    rw [if_pos hmatch]
    by_cases hlen : 1 < countSub key contents
    · rw [if_pos hlen]
      obtain ⟨l0, hl0mem, hl0key⟩ := hmatch
      have hfind : (meta.find? (fun l => l.key == key)).isSome := by
        rw [List.find?_isSome]
        exact ⟨l0, hl0mem, by simp [hl0key]⟩
      obtain ⟨lf, hlf⟩ := Option.isSome_iff_exists.mp hfind
      rw [hlf]
      exact ⟨_, _, rfl⟩
    · rw [if_neg hlen]
      exact ⟨_, _, rfl⟩
  · exact ⟨false, [Diag.extraPermissionKey key],
      keyStep_unmatched contents meta key hmatch (hsafe hmatch)⟩

/-- C5 counterexample: a permissions input with entry key `ghost` (carrying
one route object) and a registry containing only lambda `k`: the stage
panics ("Failed to match permission to key") instead of recording an error
for `ghost` and returning the aggregate failure as a value. -/
theorem c5_counterexample :
    validate_lambda_permissions "ctx".data
        [("ghost".data, PermExpr.arr [PermItem.obj []])]
        [⟨"k".data, "h".data, false, [], none, .apiGateway⟩]
      = .panic failedMatchPermMsg []
    ∧ ∀ (msg : List Char) (d : List Diag),
        validate_lambda_permissions "ctx".data
            [("ghost".data, PermExpr.arr [PermItem.obj []])]
            [⟨"k".data, "h".data, false, [], none, .apiGateway⟩]
          ≠ .err msg d := by
  refine ⟨by decide, ?_⟩
  intro msg d h
  rw [show validate_lambda_permissions "ctx".data
      [("ghost".data, PermExpr.arr [PermItem.obj []])]
      [⟨"k".data, "h".data, false, [], none, .apiGateway⟩]
    = .panic failedMatchPermMsg [] from by decide] at h
  exact RunResult.noConfusion h

/-- C5 amended: when processing of the permission entries completes without
panicking (in particular when every unmatched entry's route array is empty)
and no unmatched key occurs more than once in the raw text, the builder
records an extra-key error for every unmatched permission key and returns the
aggregate failure as a value; an unmatched key with a route object present,
or an unmatched key occurring more than once in the raw text, panics the
stage instead. -/
theorem c5_unmatched_permission_key (contents : List Char)
    (perms : List (List Char × PermExpr)) (meta meta2 : List Lambda)
    (key : List Char)
    (hg : groupsPhase perms meta = .ok meta2 [])
    (hk : key ∈ perms.map Prod.fst)
    (hun : ¬ ∃ l ∈ meta2, l.key = key)
    (hsafe : ∀ k ∈ perms.map Prod.fst,
      (¬ ∃ l ∈ meta2, l.key = k) → countSub k contents ≤ 1) :
    ∃ d, validate_lambda_permissions contents perms meta = .err invalidPermsMsg d
      ∧ Diag.extraPermissionKey key ∈ d := by
  obtain ⟨v, d, hkp⟩ := runAllBool_total (keyStep contents meta2) (perms.map Prod.fst)
    (fun k hkm => keyStep_ok contents meta2 k (hsafe k hkm))
  obtain ⟨vx, dx, hfx, hsub, himp⟩ := runAllBool_ok_mem _ _ _ _ hkp key hk
  rw [keyStep_unmatched contents meta2 key hun (hsafe key hk hun)] at hfx
  injection hfx with h1 h2
  have hmem : Diag.extraPermissionKey key ∈ d := by
    rw [← h2] at hsub
    exact hsub _ (List.mem_cons_self _ _)
  have hv : v = false := himp h1.symm
  subst hv
  refine ⟨d, ?_, hmem⟩
  unfold validate_lambda_permissions
  rw [hg]
  dsimp only [RunResult.andThen]
  rw [show keysPhase contents meta2 (perms.map Prod.fst) = .ok false d from hkp]
  simp

/-- C5 witness: the amended theorem applied at an unmatched key `ghost` whose
route array is empty and which occurs nowhere in the raw text. -/
theorem c5_witness :
    ∃ d, validate_lambda_permissions "ctx".data [("ghost".data, PermExpr.arr [])]
        [⟨"k".data, "h".data, false, [], none, .apiGateway⟩] = .err invalidPermsMsg d
      ∧ Diag.extraPermissionKey "ghost".data ∈ d :=
  c5_unmatched_permission_key "ctx".data [("ghost".data, PermExpr.arr [])]
    [⟨"k".data, "h".data, false, [], none, .apiGateway⟩]
    [⟨"k".data, "h".data, false, [], none, .apiGateway⟩]
    "ghost".data (by decide) (by decide) (by decide) (by decide)

/-- C10 witness: the conversion theorem applied at the unrecognized method
name `FOO`. -/
theorem c10_witness : methodFromString "FOO".data = none :=
  (c10_method_conversion_panics.1 "FOO".data).mpr (by decide)
